import Mathlib

/-!
Verification of the Sri Lankan NIC decoder (srilanka-nic-decoder.py).

The decoder is embedded shallowly:
* Python strings become `List Char` / `String`; `str.strip` becomes `pyStrip`
  (ASCII whitespace); `int(...)` on a string becomes `pyInt` (optional sign,
  decimal digits with single internal underscores, surrounding whitespace),
  restricted to ASCII digits.
* `datetime` arithmetic is modelled by a proleptic Gregorian calendar:
  `daysBeforeYear` / `daysBeforeMonth` / `daysInMonth` / `isLeap` follow
  CPython's `_days_before_year` / `_days_before_month` / `_days_in_month` /
  `_is_leap`, and `ymd2ord` follows `_ymd2ord` (ordinal 1 = 0001-01-01).
  `ord2ymd`, CPython's `_ord2ymd`, is modelled as the inverse of `ymd2ord`
  computed by searching the year and then the month (a fuel-bounded linear
  scan); the theorem `ymd2ord_ord2ymd` proves it is the exact inverse on the
  ordinals `datetime.date` supports, so the model agrees with any correct
  implementation.  `datetime(y, 1, 1)` requires `1 ≤ y ≤ 9999`; a resulting
  ordinal outside `[1, 3652059]` raises, which the decoder converts to
  "Computed date out of range".
* The decoder's functions keep their Python names: `is_valid_nic`,
  `parse_nic_base`, `nic_to_date`, `decode_nic`, record `NICInfo`, constant
  `DEFAULT_NIC_DAY_OFFSET`.  The distinct `ValueError`s become `NICError`.
-/

/-- ASCII whitespace stripped by Python's `str.strip` and accepted around
`int(...)` input. -/
def isPySpace (c : Char) : Bool :=
  c == ' ' || c == '\t' || c == '\n' || c == '\r' || c == '\x0b' || c == '\x0c'

/-- Python `str.strip()`: drop whitespace from both ends. -/
def pyStrip (s : List Char) : List Char :=
  ((s.dropWhile isPySpace).reverse.dropWhile isPySpace).reverse

/-- ASCII decimal digit, the fragment of Python's `\d` / `str.isdigit` /
`int()` digits modelled here. -/
def pyIsDigit (c : Char) : Bool :=
  48 ≤ c.toNat && c.toNat ≤ 57

/-- ASCII letter. -/
def pyIsAlpha (c : Char) : Bool :=
  (65 ≤ c.toNat && c.toNat ≤ 90) || (97 ≤ c.toNat && c.toNat ≤ 122)

/-- Alphanumeric character (letter or digit), the class the spec calls
"alphanumeric". -/
def pyIsAlnum (c : Char) : Bool :=
  pyIsAlpha c || pyIsDigit c

/-- Python regex `\w`: alphanumeric or underscore. -/
def isWordChar (c : Char) : Bool :=
  pyIsAlnum c || c == '_'

/-- Decimal value of a digit string (most significant first), as built by
Python's `int` conversion. -/
def natOfDigits (l : List Char) : Nat :=
  l.foldl (fun a c => a * 10 + (c.toNat - 48)) 0

/-- Tail of Python's integer-literal grammar: digits with single underscores
strictly between digits (the head being a digit is checked by the caller). -/
def digitsUnd : List Char → Bool
  | [] => true
  | '_' :: c :: rest => pyIsDigit c && digitsUnd rest
  | c :: rest => pyIsDigit c && digitsUnd rest

/-- Unsigned part of Python `int(...)`: nonempty, leading digit, digits with
single internal underscores; value ignores the underscores. -/
def pyIntCore (t : List Char) : Option Nat :=
  match t with
  | [] => none
  | c :: _ =>
    if pyIsDigit c && digitsUnd t then some (natOfDigits (t.filter pyIsDigit))
    else none

/-- Python `int(str)` (ASCII fragment): strip whitespace, optional sign,
digits with single internal underscores; `none` models `ValueError`. -/
def pyInt (s : List Char) : Option Int :=
  match pyStrip s with
  | '+' :: rest =>
    match pyIntCore rest with
    | some n => some (n : Int)
    | none => none
  | '-' :: rest =>
    match pyIntCore rest with
    | some n => some (-(n : Int))
    | none => none
  | t =>
    match pyIntCore t with
    | some n => some (n : Int)
    | none => none

/-! ## The Gregorian calendar model (CPython `datetime`) -/

/-- CPython `_is_leap`: `year % 4 == 0 and (year % 100 != 0 or year % 400 == 0)`. -/
def isLeap (y : Nat) : Bool :=
  decide (y % 4 = 0 ∧ (y % 100 ≠ 0 ∨ y % 400 = 0))

/-- CPython `_DAYS_IN_MONTH` table (index 1..12; other indices unused). -/
def daysInMonthTable : Nat → Nat
  | 1 => 31 | 2 => 28 | 3 => 31 | 4 => 30 | 5 => 31 | 6 => 30
  | 7 => 31 | 8 => 31 | 9 => 30 | 10 => 31 | 11 => 30 | _ => 31

/-- CPython `_days_in_month`. -/
def daysInMonth (y m : Nat) : Nat :=
  if m = 2 ∧ isLeap y then 29 else daysInMonthTable m

/-- CPython `_DAYS_BEFORE_MONTH` table (index 1..12), extended at 13 with the
full common year so that `daysBeforeMonth y 13 = daysInYear y`. -/
def daysBeforeMonthTable : Nat → Nat
  | 1 => 0 | 2 => 31 | 3 => 59 | 4 => 90 | 5 => 120 | 6 => 151
  | 7 => 181 | 8 => 212 | 9 => 243 | 10 => 273 | 11 => 304 | 12 => 334
  | _ => 365

/-- CPython `_days_before_month`: days in the year preceding month `m`. -/
def daysBeforeMonth (y m : Nat) : Nat :=
  daysBeforeMonthTable m + (if 2 < m ∧ isLeap y then 1 else 0)

/-- Days in year `y`. -/
def daysInYear (y : Nat) : Nat :=
  if isLeap y then 366 else 365

/-- CPython `_days_before_year`: days before January 1 of year `y`
(`y*365 + y/4 - y/100 + y/400` for `y := year - 1`); the terms are
reassociated so the truncated subtraction never clamps. -/
def daysBeforeYear (y : Nat) : Nat :=
  365 * (y - 1) + (y - 1) / 4 + (y - 1) / 400 - (y - 1) / 100

/-- `datetime.date`: a (year, month, day) triple. -/
structure PyDate where
  year : Nat
  month : Nat
  day : Nat
deriving DecidableEq, Repr

/-- CPython `_ymd2ord`: proleptic Gregorian ordinal, 0001-01-01 = 1. -/
def ymd2ord (d : PyDate) : Nat :=
  daysBeforeYear d.year + daysBeforeMonth d.year d.month + d.day

/-- The (year, month, day) triples `datetime.date` can represent. -/
def isValidDate (d : PyDate) : Bool :=
  decide (1 ≤ d.year ∧ d.year ≤ 9999 ∧ 1 ≤ d.month ∧ d.month ≤ 12 ∧
    1 ≤ d.day ∧ d.day ≤ daysInMonth d.year d.month)

/-- Linear scan for the year containing 0-based day index `n` counted from
0001-01-01, with enough fuel for every representable ordinal. -/
def findYearAux : Nat → Nat → Nat → Nat × Nat
  | 0, y, n => (y, n)
  | f + 1, y, n =>
    if n < daysInYear y then (y, n) else findYearAux f (y + 1) (n - daysInYear y)

/-- Linear scan for the month containing 0-based day index `n` of year `y`. -/
def findMonthAux (y : Nat) : Nat → Nat → Nat → Nat × Nat
  | 0, m, n => (m, n)
  | f + 1, m, n =>
    if n < daysInMonth y m then (m, n)
    else findMonthAux y f (m + 1) (n - daysInMonth y m)

/-- CPython `_ord2ymd`, modelled as the inverse of `ymd2ord`: the date of
ordinal `n` (`ymd2ord_ord2ymd` proves the round trip on valid ordinals). -/
def ord2ymd (n : Nat) : PyDate :=
  ⟨(findYearAux 10000 1 (n - 1)).1,
   (findMonthAux (findYearAux 10000 1 (n - 1)).1 12 1 (findYearAux 10000 1 (n - 1)).2).1,
   (findMonthAux (findYearAux 10000 1 (n - 1)).1 12 1 (findYearAux 10000 1 (n - 1)).2).2 + 1⟩

/-- `datetime.date.max.toordinal()`: the ordinal of 9999-12-31. -/
def MAXORDINAL : Nat := 3652059

/-! ## The NIC decoder -/

/-- `DEFAULT_NIC_DAY_OFFSET = 2`. -/
def DEFAULT_NIC_DAY_OFFSET : Int := 2

/-- The distinct `ValueError`s the decoder can raise. -/
inductive NICError where
  /-- "Invalid old NIC: expected digits in positions 1-5." -/
  | oldDigits
  /-- "Invalid new NIC: expected 12 digits." -/
  | newDigits
  /-- "Invalid NIC length; expected 10 (old) or 12 (new)." -/
  | badLength
  /-- "NIC day code out of expected range" -/
  | dayCodeOutOfRange
  /-- `datetime(year, 1, 1)` rejects a year outside `[1, 9999]` (propagates
  uncaught out of `nic_to_date`). -/
  | yearOutOfRange
  /-- "Computed date out of range" (the caught `OverflowError`). -/
  | dateOutOfRange
deriving DecidableEq, Repr

/-- The `NICInfo` dataclass. -/
structure NICInfo where
  nic_type : String
  gender : String
  birth_year : Int
  raw_day_code : Int
  day_code : Int
  birth_date : PyDate
deriving DecidableEq, Repr

/-- `is_valid_nic`: strip, then length 10 with regex `^\d{5}\w{5}$`, or
length 12 with `str.isdigit()` (nonempty, all digits). -/
def is_valid_nic (s : String) : Bool :=
  if (pyStrip s.toList).length = 10 then
    ((pyStrip s.toList).take 5).all pyIsDigit &&
      ((pyStrip s.toList).drop 5).all isWordChar
  else if (pyStrip s.toList).length = 12 then
    !(pyStrip s.toList).isEmpty && (pyStrip s.toList).all pyIsDigit
  else false

/-- `parse_nic_base`: strip, then read `(nic_type, birth_year, raw_day_code)`
from chars [0:2)/[2:5) (old, length 10) or [0:4)/[4:7) (new, length 12). -/
def parse_nic_base (s : String) : Except NICError (String × Int × Int) :=
  if (pyStrip s.toList).length = 10 then
    match pyInt ((pyStrip s.toList).take 2), pyInt (((pyStrip s.toList).drop 2).take 3) with
    | some year_part, some raw_day_code =>
      .ok ("Old NIC",
        if 0 ≤ year_part ∧ year_part ≤ 25 then 2000 + year_part else 1900 + year_part,
        raw_day_code)
    | _, _ => .error .oldDigits
  else if (pyStrip s.toList).length = 12 then
    if !(pyStrip s.toList).isEmpty && (pyStrip s.toList).all pyIsDigit then
      .ok ("New NIC", (natOfDigits ((pyStrip s.toList).take 4) : Int),
        (natOfDigits (((pyStrip s.toList).drop 4).take 3) : Int))
    else .error .newDigits
  else .error .badLength

/-- `nic_to_date`: `(datetime(birth_year, 1, 1) + timedelta(days = day_code -
offset)).date()`; a year `datetime` rejects propagates, an out-of-range
result becomes "Computed date out of range". -/
def nic_to_date (birth_year day_code off : Int) : Except NICError PyDate :=
  if birth_year < 1 ∨ 9999 < birth_year then .error .yearOutOfRange
  else
    if (ymd2ord ⟨birth_year.toNat, 1, 1⟩ : Int) + (day_code - off) < 1 ∨
        (MAXORDINAL : Int) < (ymd2ord ⟨birth_year.toNat, 1, 1⟩ : Int) + (day_code - off)
    then .error .dateOutOfRange
    else .ok (ord2ymd ((ymd2ord ⟨birth_year.toNat, 1, 1⟩ : Int) + (day_code - off)).toNat)

/-- Gender inference in `decode_nic`: `"Female" if raw_day_code > 500 else
"Male"`. -/
def genderOf (raw_day_code : Int) : String :=
  if 500 < raw_day_code then "Female" else "Male"

/-- Day-code normalization in `decode_nic`: subtract 500 for females. -/
def normalizeDayCode (raw_day_code : Int) : Int :=
  if 500 < raw_day_code then raw_day_code - 500 else raw_day_code

/-- `decode_nic`: parse, infer gender (`raw_day_code > 500` means female and
subtracts 500), range-check the day code against `[0, 366 + offset + 5]`,
resolve the date, assemble the record. -/
def decode_nic (s : String) (off : Int) : Except NICError NICInfo :=
  match parse_nic_base s with
  | .error e => .error e
  | .ok (nic_type, birth_year, raw_day_code) =>
    if normalizeDayCode raw_day_code < 0 ∨
        366 + off + 5 < normalizeDayCode raw_day_code
    then .error .dayCodeOutOfRange
    else
      match nic_to_date birth_year (normalizeDayCode raw_day_code) off with
      | .error e => .error e
      | .ok d =>
        .ok ⟨nic_type, genderOf raw_day_code, birth_year, raw_day_code,
          normalizeDayCode raw_day_code, d⟩

/-- Whether an `Except` value is a success. -/
def exceptOk {ε α : Type} : Except ε α → Bool
  | .ok _ => true
  | .error _ => false

instance {ε α : Type} [DecidableEq ε] [DecidableEq α] : DecidableEq (Except ε α) := fun
  | .ok a, .ok b =>
    if h : a = b then .isTrue (by rw [h]) else .isFalse (fun he => h (Except.ok.inj he))
  | .ok _, .error _ => .isFalse (fun h => nomatch h)
  | .error _, .ok _ => .isFalse (fun h => nomatch h)
  | .error e, .error e' =>
    if h : e = e' then .isTrue (by rw [h]) else .isFalse (fun he => h (Except.error.inj he))

set_option maxRecDepth 40000

/-! ## Calendar lemmas: `ord2ymd` inverts `ymd2ord` on representable ordinals -/

theorem daysBeforeYear_succ (y : Nat) (hy : 1 ≤ y) :
    daysBeforeYear (y + 1) = daysBeforeYear y + daysInYear y := by
  obtain ⟨x, rfl⟩ : ∃ x, y = x + 1 := ⟨y - 1, by omega⟩
  simp only [daysBeforeYear, daysInYear, isLeap, Nat.add_sub_cancel, decide_eq_true_eq]
  by_cases h4 : (x + 1) % 4 = 0
  · by_cases h100 : (x + 1) % 100 = 0
    · by_cases h400 : (x + 1) % 400 = 0
      · have e4 : (x + 1) / 4 = x / 4 + 1 := by omega
        have e100 : (x + 1) / 100 = x / 100 + 1 := by omega
        have e400 : (x + 1) / 400 = x / 400 + 1 := by omega
        rw [if_pos ⟨h4, Or.inr h400⟩, e4, e100, e400,
          Nat.sub_eq_iff_eq_add (by omega)]
        omega
      · have e4 : (x + 1) / 4 = x / 4 + 1 := by omega
        have e100 : (x + 1) / 100 = x / 100 + 1 := by omega
        have e400 : (x + 1) / 400 = x / 400 := by omega
        rw [if_neg (by tauto), e4, e100, e400,
          Nat.sub_eq_iff_eq_add (by omega)]
        omega
    · have e4 : (x + 1) / 4 = x / 4 + 1 := by omega
      have e100 : (x + 1) / 100 = x / 100 := by omega
      have e400 : (x + 1) / 400 = x / 400 := by omega
      rw [if_pos ⟨h4, Or.inl h100⟩, e4, e100, e400,
        Nat.sub_eq_iff_eq_add (by omega)]
      omega
  · have e4 : (x + 1) / 4 = x / 4 := by omega
    have e100 : (x + 1) / 100 = x / 100 := by omega
    have e400 : (x + 1) / 400 = x / 400 := by omega
    rw [if_neg (by tauto), e4, e100, e400,
      Nat.sub_eq_iff_eq_add (by omega)]
    omega

theorem daysBeforeYear_le_succ (y : Nat) : daysBeforeYear y ≤ daysBeforeYear (y + 1) := by
  rcases Nat.eq_zero_or_pos y with h | h
  · subst h; decide
  · rw [daysBeforeYear_succ y h]; omega

theorem daysBeforeYear_mono {a b : Nat} (h : a ≤ b) :
    daysBeforeYear a ≤ daysBeforeYear b := by
  induction h with
  | refl => exact le_refl _
  | step _ ih => exact le_trans ih (daysBeforeYear_le_succ _)

theorem daysBeforeMonth_one (y : Nat) : daysBeforeMonth y 1 = 0 := by
  simp [daysBeforeMonth, daysBeforeMonthTable]

theorem daysBeforeMonth_thirteen (y : Nat) : daysBeforeMonth y 13 = daysInYear y := by
  cases h : isLeap y <;>
    simp [daysBeforeMonth, daysBeforeMonthTable, daysInYear, h]

theorem daysBeforeMonth_succ (y m : Nat) (h1 : 1 ≤ m) (h2 : m ≤ 12) :
    daysBeforeMonth y (m + 1) = daysBeforeMonth y m + daysInMonth y m := by
  interval_cases m <;> cases h : isLeap y <;>
    simp [daysBeforeMonth, daysBeforeMonthTable, daysInMonth, daysInMonthTable, h]

theorem findYearAux_spec : ∀ f y n Y r : Nat, 1 ≤ y →
    daysBeforeYear y + n < daysBeforeYear (y + f) →
    findYearAux f y n = (Y, r) →
    1 ≤ Y ∧ r < daysInYear Y ∧ daysBeforeYear Y + r = daysBeforeYear y + n := by
  intro f
  induction f with
  | zero =>
    intro y n Y r _ hlt _
    simp only [Nat.add_zero] at hlt
    omega
  | succ f ih =>
    intro y n Y r hy hlt heq
    simp only [findYearAux] at heq
    split at heq
    · next hn =>
      injection heq with hA hB
      subst hA; subst hB
      exact ⟨hy, hn, rfl⟩
    · next hn =>
      have hstep := daysBeforeYear_succ y hy
      have hres := ih (y + 1) (n - daysInYear y) Y r (by omega) (by
        have hyf : y + 1 + f = y + (f + 1) := by omega
        rw [hyf, hstep]
        omega) heq
      obtain ⟨hr1, hr2, hr3⟩ := hres
      exact ⟨hr1, hr2, by omega⟩

theorem findMonthAux_spec (Y : Nat) : ∀ f m n M r : Nat, 1 ≤ m → m + f ≤ 13 →
    daysBeforeMonth Y m + n < daysBeforeMonth Y (m + f) →
    findMonthAux Y f m n = (M, r) →
    1 ≤ M ∧ M < m + f ∧ r < daysInMonth Y M ∧
      daysBeforeMonth Y M + r = daysBeforeMonth Y m + n := by
  intro f
  induction f with
  | zero =>
    intro m n M r _ _ hlt _
    simp only [Nat.add_zero] at hlt
    omega
  | succ f ih =>
    intro m n M r hm hf hlt heq
    simp only [findMonthAux] at heq
    split at heq
    · next hn =>
      injection heq with hA hB
      subst hA; subst hB
      exact ⟨hm, by omega, hn, rfl⟩
    · next hn =>
      have hstep := daysBeforeMonth_succ Y m hm (by omega)
      have hres := ih (m + 1) (n - daysInMonth Y m) M r (by omega) (by omega) (by
        have hmf : m + 1 + f = m + (f + 1) := by omega
        rw [hmf, hstep]
        omega) heq
      obtain ⟨hr1, hr2, hr3, hr4⟩ := hres
      exact ⟨hr1, by omega, hr3, by omega⟩

theorem ymd2ord_ord2ymd (n : Nat) (h1 : 1 ≤ n) (h2 : n ≤ MAXORDINAL) :
    isValidDate (ord2ymd n) = true ∧ ymd2ord (ord2ymd n) = n := by
  have e10001 : daysBeforeYear 10001 = 3652425 := by decide
  have e10000 : daysBeforeYear 10000 = 3652059 := by decide
  have e1 : daysBeforeYear 1 = 0 := by decide
  have h2' : n ≤ 3652059 := h2
  rcases hfy : findYearAux 10000 1 (n - 1) with ⟨Y, r⟩
  have hY := findYearAux_spec 10000 1 (n - 1) Y r (le_refl 1)
    (by show daysBeforeYear 1 + (n - 1) < daysBeforeYear 10001; omega) hfy
  obtain ⟨hY1, hY2, hY3⟩ := hY
  have hY9999 : Y ≤ 9999 := by
    by_contra hc
    have hmono : daysBeforeYear 10000 ≤ daysBeforeYear Y := daysBeforeYear_mono (by omega)
    omega
  rcases hfm : findMonthAux Y 12 1 r with ⟨M, d0⟩
  have hone := daysBeforeMonth_one Y
  have hthir := daysBeforeMonth_thirteen Y
  have hM := findMonthAux_spec Y 12 1 r M d0 (le_refl 1) (by omega)
    (by show daysBeforeMonth Y 1 + r < daysBeforeMonth Y 13; omega) hfm
  obtain ⟨hM1, hM2, hM3, hM4⟩ := hM
  have hord : ord2ymd n = ⟨Y, M, d0 + 1⟩ := by
    unfold ord2ymd
    rw [hfy]
    dsimp only
    rw [hfm]
  rw [hord]
  constructor
  · simp only [isValidDate, decide_eq_true_eq]
    exact ⟨hY1, hY9999, hM1, by omega, by omega, by omega⟩
  · simp only [ymd2ord]
    omega

/-- What a successful `nic_to_date` guarantees: the year was acceptable to
`datetime`, the result is a representable calendar date, and its ordinal is
the ordinal of January 1 of `birth_year` plus `day_code - offset`. -/
theorem nic_to_date_ok (y d off : Int) (D : PyDate)
    (h : nic_to_date y d off = .ok D) :
    1 ≤ y ∧ y ≤ 9999 ∧ isValidDate D = true ∧
      (ymd2ord D : Int) = (ymd2ord ⟨y.toNat, 1, 1⟩ : Int) + (d - off) := by
  unfold nic_to_date at h
  split at h
  · simp at h
  next hy =>
    split at h
    · simp at h
    next ho =>
      have hD : D = ord2ymd ((ymd2ord ⟨y.toNat, 1, 1⟩ + (d - off) : Int)).toNat := by
        injection h with h'
        exact h'.symm
      have hMO : (MAXORDINAL : Int) = 3652059 := rfl
      have hMO' : MAXORDINAL = 3652059 := rfl
      push_neg at hy ho
      have hrt := ymd2ord_ord2ymd ((ymd2ord ⟨y.toNat, 1, 1⟩ + (d - off) : Int)).toNat
        (by omega) (by omega)
      refine ⟨by omega, by omega, by rw [hD]; exact hrt.1, ?_⟩
      rw [hD, hrt.2]
      omega

/-! ## Bounds on parsed integers -/

theorem natOfDigits_aux (l : List Char) : ∀ a : Nat, l.all pyIsDigit = true →
    l.foldl (fun a c => a * 10 + (c.toNat - 48)) a < (a + 1) * 10 ^ l.length := by
  induction l with
  | nil => intro a _; simp
  | cons c l ih =>
    intro a h
    simp only [List.all_cons, Bool.and_eq_true] at h
    have hd : c.toNat - 48 ≤ 9 := by
      have hc := h.1
      simp only [pyIsDigit, Bool.and_eq_true, decide_eq_true_eq] at hc
      omega
    have hrec := ih (a * 10 + (c.toNat - 48)) h.2
    simp only [List.foldl_cons, List.length_cons]
    refine lt_of_lt_of_le hrec ?_
    have hre : (a + 1) * 10 ^ (l.length + 1) = ((a + 1) * 10) * 10 ^ l.length := by
      ring
    rw [hre]
    exact Nat.mul_le_mul_right _ (by omega)

theorem natOfDigits_lt (l : List Char) (h : l.all pyIsDigit = true) :
    natOfDigits l < 10 ^ l.length := by
  have := natOfDigits_aux l 0 h
  simpa [natOfDigits] using this

theorem pyIntCore_bound (t : List Char) (v : Nat) (h : pyIntCore t = some v) :
    v < 10 ^ t.length := by
  cases t with
  | nil => simp [pyIntCore] at h
  | cons c rest =>
    simp only [pyIntCore] at h
    split at h
    · have hv : v = natOfDigits ((c :: rest).filter pyIsDigit) := by
        injection h with h'
        exact h'.symm
      have hall : ((c :: rest).filter pyIsDigit).all pyIsDigit = true := by
        rw [List.all_eq_true]
        intro a ha
        exact List.of_mem_filter ha
      have hlen : ((c :: rest).filter pyIsDigit).length ≤ (c :: rest).length :=
        List.length_filter_le _ _
      rw [hv]
      exact lt_of_lt_of_le (natOfDigits_lt _ hall)
        (Nat.pow_le_pow_right (by norm_num) hlen)
    · exact Option.noConfusion h

theorem pyStrip_length_le (s : List Char) : (pyStrip s).length ≤ s.length := by
  unfold pyStrip
  rw [List.length_reverse]
  calc ((s.dropWhile isPySpace).reverse.dropWhile isPySpace).length
      ≤ (s.dropWhile isPySpace).reverse.length := (List.dropWhile_sublist _).length_le
    _ = (s.dropWhile isPySpace).length := List.length_reverse _
    _ ≤ s.length := (List.dropWhile_sublist _).length_le

theorem pyInt_bound (s : List Char) (v : Int) (h : pyInt s = some v) :
    -(10 ^ s.length : Int) < v ∧ v < 10 ^ s.length := by
  have hsl := pyStrip_length_le s
  have hpow : (10 ^ (pyStrip s).length : Int) ≤ 10 ^ s.length :=
    pow_le_pow_right (by norm_num) hsl
  have hpos : (0 : Int) < 10 ^ (pyStrip s).length := by positivity
  unfold pyInt at h
  split at h
  · next rest heq =>
    split at h
    · next n hc =>
      injection h with h'
      have hb := pyIntCore_bound rest n hc
      have hlen : rest.length + 1 = (pyStrip s).length := by rw [heq]; simp
      have hup : (n : Int) < 10 ^ (pyStrip s).length := by
        calc (n : Int) < 10 ^ rest.length := by exact_mod_cast hb
          _ ≤ 10 ^ (pyStrip s).length := pow_le_pow_right (by norm_num) (by omega)
      constructor <;> omega
    · exact Option.noConfusion h
  · next rest heq =>
    split at h
    · next n hc =>
      injection h with h'
      have hb := pyIntCore_bound rest n hc
      have hlen : rest.length + 1 = (pyStrip s).length := by rw [heq]; simp
      have hup : (n : Int) < 10 ^ (pyStrip s).length := by
        calc (n : Int) < 10 ^ rest.length := by exact_mod_cast hb
          _ ≤ 10 ^ (pyStrip s).length := pow_le_pow_right (by norm_num) (by omega)
      constructor <;> omega
    · exact Option.noConfusion h
  · next t hne1 hne2 =>
    split at h
    · next n hc =>
      injection h with h'
      have hb := pyIntCore_bound (pyStrip s) n hc
      have hup : (n : Int) < 10 ^ (pyStrip s).length := by exact_mod_cast hb
      constructor <;> omega
    · exact Option.noConfusion h

/-- A parsed `raw_day_code` comes from at most three characters, so its
magnitude stays below 1000. -/
theorem parse_nic_base_raw_bound (s : String) (t : String) (y r : Int)
    (h : parse_nic_base s = .ok (t, y, r)) : -1000 < r ∧ r < 1000 := by
  unfold parse_nic_base at h
  split at h
  · next hlen =>
    split at h
    · next year_part raw hy hr =>
      injection h with h'
      obtain ⟨-, -, hr'⟩ : t = "Old NIC" ∧ y = _ ∧ r = raw := by
        refine ⟨congrArg Prod.fst h'.symm, ?_, ?_⟩
        · exact congrArg (fun p => p.2.1) h'.symm
        · exact congrArg (fun p => p.2.2) h'.symm
      subst hr'
      have hb := pyInt_bound _ _ hr
      have hlen3 : (((pyStrip s.toList).drop 2).take 3).length ≤ 3 :=
        List.length_take_le _ _
      have hp : (10 ^ (((pyStrip s.toList).drop 2).take 3).length : Int) ≤ 10 ^ 3 :=
        pow_le_pow_right (by norm_num) hlen3
      have h1000 : ((10 : Int) ^ 3 : Int) = 1000 := by norm_num
      omega
    · exact Except.noConfusion h
  · split at h
    · next hlen12 =>
      split at h
      · next hdig =>
        injection h with h'
        obtain ⟨-, -, hr'⟩ : t = "New NIC" ∧ y = _ ∧
            r = (natOfDigits (((pyStrip s.toList).drop 4).take 3) : Int) := by
          refine ⟨congrArg Prod.fst h'.symm, ?_, ?_⟩
          · exact congrArg (fun p => p.2.1) h'.symm
          · exact congrArg (fun p => p.2.2) h'.symm
        subst hr'
        have hall : ((((pyStrip s.toList).drop 4).take 3)).all pyIsDigit = true := by
          rw [List.all_eq_true]
          intro a ha
          rw [Bool.and_eq_true, List.all_eq_true] at hdig
          exact hdig.2 a (((List.take_sublist _ _).trans (List.drop_sublist _ _)).subset ha)
        have hlt := natOfDigits_lt _ hall
        have hlen3 : (((pyStrip s.toList).drop 4).take 3).length ≤ 3 :=
          List.length_take_le _ _
        have hp : (10 : Nat) ^ (((pyStrip s.toList).drop 4).take 3).length ≤ 10 ^ 3 :=
          Nat.pow_le_pow_right (by norm_num) hlen3
        have h1000 : (10 : Nat) ^ 3 = 1000 := by norm_num
        omega
      · exact Except.noConfusion h
    · exact Except.noConfusion h

/-- `nic_to_date` never reports the day-code range error: that error belongs
to `decode_nic` alone. -/
theorem nic_to_date_ne_dayCode (y d off : Int) :
    nic_to_date y d off ≠ .error NICError.dayCodeOutOfRange := by
  unfold nic_to_date
  split_ifs <;> simp

/-- Anatomy of a successful decode: the parse result, the passed range check,
the resolved date, and the assembled record. -/
theorem decode_nic_ok_elim (s : String) (off : Int) (info : NICInfo)
    (h : decode_nic s off = .ok info) :
    ∃ t y r D, parse_nic_base s = .ok (t, y, r) ∧
      ¬(normalizeDayCode r < 0 ∨ 366 + off + 5 < normalizeDayCode r) ∧
      nic_to_date y (normalizeDayCode r) off = .ok D ∧
      info = ⟨t, genderOf r, y, r, normalizeDayCode r, D⟩ := by
  unfold decode_nic at h
  split at h
  · exact Except.noConfusion h
  next nt yb r heq =>
    split at h
    · exact Except.noConfusion h
    next hcond =>
      split at h
      · exact Except.noConfusion h
      next D hnd =>
        refine ⟨nt, yb, r, D, heq, hcond, hnd, ?_⟩
        injection h with h'
        exact h'.symm


/-! ## The claims -/

/-- Claim C1 (corrected): decoding `"199253600001"` with the default offset 2
succeeds with `format_kind = NEW`, `birth_year = 1992`, `raw_day_code = 536`,
`gender = FEMALE`, `day_code = 36` — but the resolved `birth_date` is
1992-02-04, not the 1992-02-05 the spec states (January 1 counted as day 0
plus `36 - 2 = 34` days lands on February 4). -/
theorem C1_new_nic_decodes_to_feb4 :
    decode_nic "199253600001" 2 =
      .ok ⟨"New NIC", "Female", 1992, 536, 36, ⟨1992, 2, 4⟩⟩ := by
  decide

/-- Claim C1, counterexample: the decoder returns February 4, 1992 for
`"199253600001"`, and February 4 is not the February 5 the claim states. -/
theorem C1_spec_date_refuted :
    decode_nic "199253600001" 2 =
      .ok ⟨"New NIC", "Female", 1992, 536, 36, ⟨1992, 2, 4⟩⟩ ∧
    (⟨1992, 2, 4⟩ : PyDate) ≠ ⟨1992, 2, 5⟩ := by
  constructor
  · decide
  · decide

/-- Claim C2 (corrected): decoding `"1234567890"` with the default offset 2
does not fail at all: the raw day code 345 is within `[0, 373]`, so the
decode succeeds with birth date 2012-12-09. -/
theorem C2_decode_1234567890_succeeds :
    decode_nic "1234567890" 2 =
      .ok ⟨"Old NIC", "Male", 2012, 345, 345, ⟨2012, 12, 9⟩⟩ := by
  decide

/-- Claim C2, counterexample: `decode_nic "1234567890" 2` returns a record
(it raises neither the day-code-range error nor the date error). -/
theorem C2_failure_refuted :
    exceptOk (decode_nic "1234567890" 2) = true ∧
    decode_nic "1234567890" 2 ≠ .error NICError.dayCodeOutOfRange ∧
    decode_nic "1234567890" 2 ≠ .error NICError.dateOutOfRange := by
  refine ⟨by decide, by decide, by decide⟩

/-- Claim C3 (corrected): for every `birth_year` and `day_code` on which both
calls succeed, `to_date` with offset 0 is exactly 2 days LATER (not earlier)
than with offset 2: lowering the offset subtracts less from the day code. -/
theorem C3_offset_zero_two_days_later (y d : Int) (D0 D2 : PyDate)
    (h0 : nic_to_date y d 0 = .ok D0) (h2 : nic_to_date y d 2 = .ok D2) :
    (ymd2ord D0 : Int) = (ymd2ord D2 : Int) + 2 := by
  obtain ⟨-, -, -, ho0⟩ := nic_to_date_ok y d 0 D0 h0
  obtain ⟨-, -, -, ho2⟩ := nic_to_date_ok y d 2 D2 h2
  omega

/-- Claim C3, witness: at `birth_year = 1992`, `day_code = 36`, offset 0
resolves to 1992-02-06 and offset 2 to 1992-02-04, two days apart. -/
theorem C3_offset_witness :
    (ymd2ord ⟨1992, 2, 6⟩ : Int) = (ymd2ord ⟨1992, 2, 4⟩ : Int) + 2 :=
  C3_offset_zero_two_days_later 1992 36 ⟨1992, 2, 6⟩ ⟨1992, 2, 4⟩
    (by decide) (by decide)

/-- Claim C3, counterexample: at `birth_year = 1992`, `day_code = 36`, both
calls succeed (offset 0 gives 1992-02-06, offset 2 gives 1992-02-04), and the
offset-0 date is not 2 days EARLIER than the offset-2 date as claimed. -/
theorem C3_earlier_refuted :
    nic_to_date 1992 36 0 = .ok ⟨1992, 2, 6⟩ ∧
    nic_to_date 1992 36 2 = .ok ⟨1992, 2, 4⟩ ∧
    ¬(ymd2ord ⟨1992, 2, 6⟩ + 2 = ymd2ord ⟨1992, 2, 4⟩) := by
  refine ⟨by decide, by decide, by decide⟩

/-- Claim C4 (confirmed): whenever `to_date` succeeds, the returned value is a
valid calendar date whose proleptic Gregorian ordinal equals the ordinal of
January 1 of `birth_year` (day 0) plus `day_code - offset` days, the
difference taken in ℤ (so a negative day-of-year reaches back into the
previous year), with calendar-correct (leap-year and month-length aware)
arithmetic. -/
theorem C4_to_date_algorithm (y d off : Int) (D : PyDate)
    (h : nic_to_date y d off = .ok D) :
    isValidDate D = true ∧
      (ymd2ord D : Int) = (ymd2ord ⟨y.toNat, 1, 1⟩ : Int) + (d - off) := by
  obtain ⟨-, -, hv, ho⟩ := nic_to_date_ok y d off D h
  exact ⟨hv, ho⟩

/-- Claim C4, witness: `to_date 1991 268 2` succeeds with 1991-09-24, whose
ordinal is the ordinal of 1991-01-01 plus 266. -/
theorem C4_to_date_witness :
    isValidDate ⟨1991, 9, 24⟩ = true ∧
      (ymd2ord ⟨1991, 9, 24⟩ : Int) =
        (ymd2ord ⟨(1991 : Int).toNat, 1, 1⟩ : Int) + (268 - 2) :=
  C4_to_date_algorithm 1991 268 2 ⟨1991, 9, 24⟩ (by decide)

/-- Claim C5 (confirmed): once base parsing succeeds (gender normalization is
total), `decode_nic` fails with the day-code-range error exactly when the
normalized day code falls outside `[0, 366 + offset + 5]`; inside that
interval that error is never raised. -/
theorem C5_day_code_range_check (s : String) (off : Int) (t : String)
    (y r : Int) (h : parse_nic_base s = .ok (t, y, r)) :
    decode_nic s off = .error NICError.dayCodeOutOfRange ↔
      (normalizeDayCode r < 0 ∨ 366 + off + 5 < normalizeDayCode r) := by
  have helim : decode_nic s off =
      if normalizeDayCode r < 0 ∨ 366 + off + 5 < normalizeDayCode r
      then .error .dayCodeOutOfRange
      else match nic_to_date y (normalizeDayCode r) off with
        | .error e => .error e
        | .ok d => .ok ⟨t, genderOf r, y, r, normalizeDayCode r, d⟩ := by
    unfold decode_nic
    rw [h]
  rw [helim]
  by_cases hc : normalizeDayCode r < 0 ∨ 366 + off + 5 < normalizeDayCode r
  · simp [hc]
  · rw [if_neg hc]
    simp only [hc, iff_false]
    cases hnd : nic_to_date y (normalizeDayCode r) off with
    | error e =>
      have hne := nic_to_date_ne_dayCode y (normalizeDayCode r) off
      rw [hnd] at hne
      simpa using hne
    | ok D => simp

/-- Claim C5, witness: `"999999999V"` parses to raw day code 999, whose
normalized value 499 is outside `[0, 373]`, and decode indeed reports the
day-code-range error. -/
theorem C5_range_witness :
    decode_nic "999999999V" 2 = .error NICError.dayCodeOutOfRange ↔
      (normalizeDayCode 999 < 0 ∨ 366 + 2 + 5 < normalizeDayCode 999) :=
  C5_day_code_range_check "999999999V" 2 "Old NIC" 1999 999 (by decide)

/-- Claim C6 (corrected): after trimming surrounding whitespace, `is_valid`
returns true exactly for a length-10 string whose first 5 characters are
digits and whose last 5 are WORD characters — alphanumeric or underscore,
Python's `\w`, not the claim's "alphanumeric" — or a length-12 all-digit
string; being a total function it never raises. -/
theorem C6_is_valid_characterization (s : String) :
    is_valid_nic s = true ↔
      (((pyStrip s.toList).length = 10 ∧
          ((pyStrip s.toList).take 5).all pyIsDigit = true ∧
          ((pyStrip s.toList).drop 5).all isWordChar = true) ∨
        ((pyStrip s.toList).length = 12 ∧
          (pyStrip s.toList).all pyIsDigit = true)) := by
  unfold is_valid_nic
  split_ifs with h10 h12
  · constructor
    · intro hab
      rw [Bool.and_eq_true] at hab
      exact Or.inl ⟨h10, hab.1, hab.2⟩
    · intro hor
      rcases hor with ⟨-, hA, hB⟩ | ⟨h12', -⟩
      · rw [Bool.and_eq_true]
        exact ⟨hA, hB⟩
      · rw [h10] at h12'
        exact absurd h12' (by decide)
  · have hne : ¬(pyStrip s.toList) = [] := by
      intro hnil
      rw [hnil] at h12
      exact absurd h12 (by decide)
    constructor
    · intro hab
      rw [Bool.and_eq_true] at hab
      exact Or.inr ⟨h12, hab.2⟩
    · intro hor
      rcases hor with ⟨h10', -, -⟩ | ⟨-, hall⟩
      · exact absurd h10' h10
      · rw [Bool.and_eq_true]
        refine ⟨?_, hall⟩
        cases hl : pyStrip s.toList with
        | nil => exact absurd hl hne
        | cons c cs => rfl
  · constructor
    · intro hfalse
      exact hfalse.elim
    · intro hor
      rcases hor with ⟨h10', -⟩ | ⟨h12', -⟩
      · exact absurd h10' h10
      · exact absurd h12' h12

/-- Claim C6, counterexample: `"12345_____"` has five digits followed by five
underscores — not alphanumeric — yet `is_valid` accepts it, because the
regex `\w` also matches the underscore. -/
theorem C6_alnum_refuted :
    is_valid_nic "12345_____" = true ∧
    ("12345_____".toList.drop 5).all pyIsAlnum = false := by
  refine ⟨by decide, by decide⟩

/-- Claim C7 (confirmed): every successful decode reports FEMALE exactly when
`raw_day_code > 500`, with `day_code = raw_day_code - 500` for females and
`day_code = raw_day_code` for males. -/
theorem C7_gender_invariant (s : String) (off : Int) (info : NICInfo)
    (h : decode_nic s off = .ok info) :
    (info.gender = "Female" ↔ 500 < info.raw_day_code) ∧
    (info.gender = "Female" → info.day_code = info.raw_day_code - 500) ∧
    (info.gender = "Male" → info.day_code = info.raw_day_code) := by
  obtain ⟨t, y, r, D, -, -, -, hinfo⟩ := decode_nic_ok_elim s off info h
  subst hinfo
  by_cases hr : 500 < r <;>
    simp [genderOf, normalizeDayCode, hr]

/-- Claim C7, witness: the record decoded from `"199253600001"` (raw day code
536, gender Female, day code 36) satisfies the gender invariant. -/
theorem C7_gender_witness :
    (("Female" : String) = "Female" ↔ (500 : Int) < 536) ∧
    (("Female" : String) = "Female" → (36 : Int) = 536 - 500) ∧
    (("Female" : String) = "Male" → (36 : Int) = 536) :=
  C7_gender_invariant "199253600001" 2
    ⟨"New NIC", "Female", 1992, 536, 36, ⟨1992, 2, 4⟩⟩ (by decide)

/-- Claim C8 (confirmed): for an old-format (stripped length 10) input whose
two-character year field parses to `v`, the resolved birth year is `2000 + v`
when `0 ≤ v ≤ 25` and `1900 + v` otherwise. -/
theorem C8_year_resolution (s : String) (t : String) (y r v : Int)
    (h : parse_nic_base s = .ok (t, y, r))
    (hlen : (pyStrip s.toList).length = 10)
    (hv : pyInt ((pyStrip s.toList).take 2) = some v) :
    y = if 0 ≤ v ∧ v ≤ 25 then 2000 + v else 1900 + v := by
  unfold parse_nic_base at h
  rw [if_pos hlen] at h
  split at h
  · next year_part raw hy hr =>
    rw [hv] at hy
    injection hy with h'
    injection h with h''
    subst h'
    have hy2 := congrArg (fun p : String × Int × Int => p.2.1) h''
    exact hy2.symm
  · exact Except.noConfusion h

/-- Claim C8, witness: suffix `"25"` resolves to 2025 and suffix `"26"` to
1926. -/
theorem C8_year_witness :
    ((2025 : Int) = if (0 : Int) ≤ 25 ∧ (25 : Int) ≤ 25
      then 2000 + 25 else 1900 + 25) ∧
    ((1926 : Int) = if (0 : Int) ≤ 26 ∧ (26 : Int) ≤ 25
      then 2000 + 26 else 1900 + 26) :=
  ⟨C8_year_resolution "2500000001" "Old NIC" 2025 0 25
      (by decide) (by decide) (by decide),
   C8_year_resolution "2600000001" "Old NIC" 1926 0 26
      (by decide) (by decide) (by decide)⟩

/-- Claim C9 (corrected): every successful decode has `raw_day_code` in
`[0, 999]` and `day_code` in `[0, 500]`; the claimed `[0, 499]` holds
whenever `offset ≤ 128` (so in particular at the default offset 2), but a
male record with `raw_day_code = 500` passes the range check once
`366 + offset + 5 ≥ 500`, making `day_code = 500` reachable. -/
theorem C9_day_code_bounds (s : String) (off : Int) (info : NICInfo)
    (h : decode_nic s off = .ok info) :
    0 ≤ info.raw_day_code ∧ info.raw_day_code ≤ 999 ∧
      0 ≤ info.day_code ∧ info.day_code ≤ 500 ∧
      (off ≤ 128 → info.day_code ≤ 499) := by
  obtain ⟨t, y, r, D, hp, hc, -, hinfo⟩ := decode_nic_ok_elim s off info h
  have hb := parse_nic_base_raw_bound s t y r hp
  subst hinfo
  dsimp only
  push_neg at hc
  unfold normalizeDayCode at hc ⊢
  by_cases hr : 500 < r
  · rw [if_pos hr] at hc ⊢
    omega
  · rw [if_neg hr] at hc ⊢
    omega

/-- Claim C9, witness: the record decoded from `"199253600001"` at the
default offset satisfies the bounds, `day_code ≤ 499` included. -/
theorem C9_bounds_witness :
    (0 : Int) ≤ 536 ∧ (536 : Int) ≤ 999 ∧ (0 : Int) ≤ 36 ∧ (36 : Int) ≤ 500 ∧
      ((2 : Int) ≤ 128 → (36 : Int) ≤ 499) :=
  C9_day_code_bounds "199253600001" 2
    ⟨"New NIC", "Female", 1992, 536, 36, ⟨1992, 2, 4⟩⟩ (by decide)

/-- Claim C9, counterexample: with offset 129 the input `"9150000000"`
decodes successfully to a male record with `day_code = 500`, outside the
claimed `[0, 499]`. -/
theorem C9_range_refuted :
    decode_nic "9150000000" 129 =
      .ok ⟨"Old NIC", "Male", 1991, 500, 500, ⟨1992, 1, 7⟩⟩ ∧
    ¬((500 : Int) ≤ 499) := by
  refine ⟨by decide, by decide⟩

/-- Claim C10 (confirmed): `is_valid` passing is not a precondition of a
successful decode: `"91268!!!!!"` fails validation (its last five characters
are not word characters) yet decodes, because the base parser reads only the
first five characters of an old-format NIC. -/
theorem C10_decode_ignores_validation :
    is_valid_nic "91268!!!!!" = false ∧
    exceptOk (decode_nic "91268!!!!!" 2) = true := by
  refine ⟨by decide, by decide⟩
